import Mathlib

/-!
Shallow embedding of the MongoDB backup pipeline of this repository,
centred on `MongoBackupProvider.createBackup`
(src/backup/providers/mongo.backup.provider.ts, lines 28-147).

The method is an async function performing a linear sequence of external
interactions: run `mongodump`, verify the dump directory, optionally run
`tar`, read the final artifact, resolve the bucket name, upload to S3,
and clean up scratch files.  We embed it as a pure function over an
environment record `Env` that fixes the outcome of every external
interaction the run performs (configuration lookups, command results,
filesystem observations, the store call, clock readings).  The function
returns the `BackupResult` the TypeScript method would return, together
with a trace of the external calls it issued (`Event`) and a bookkeeping
marker (`StopStage`) recording which point of the control flow produced
the returned result.  Base64 decoding (Node's `Buffer.from(s, 'base64')`)
is an external library call and is passed in as an abstract function
`decode`.
-/

/-- Result of the process-execution capability
(`CommandResult` in src/command/providers/command.provider.ts):
captured stdout, stderr, numeric exit code and a success flag. -/
structure CommandResult where
  stdout : String
  stderr : String
  exitCode : Int
  success : Bool
  deriving DecidableEq

/-- Options bundle accepted by `createBackup`
(`BackupOptions` in src/backup/providers/backup.provider.ts). -/
structure BackupOptions where
  name : Option String
  timestamp : Option String
  destination : Option String
  compress : Option Bool
  deriving DecidableEq

/-- The tagged result shape returned by `createBackup`
(`BackupResult` in src/backup/providers/backup.provider.ts).
Optional fields that a given return statement does not mention are
`none`, exactly as the TypeScript object literals omit them. -/
structure BackupResult where
  success : Bool
  backupId : String
  timestamp : String
  size : Option Nat
  location : Option String
  error : Option String
  deriving DecidableEq

/-- Outcome of `fs.readFileSync` on the final artifact file: either the
byte length of the buffer that was read, or the message of the raised
error. -/
inductive FsRead where
  | ok (bytes : Nat)
  | err (msg : String)
  deriving DecidableEq

/-- Outcome of `storageService.save`: resolves, or rejects with an error
whose message is recorded. -/
inductive S3Outcome where
  | ok
  | err (msg : String)
  deriving DecidableEq

/-- The external world of one `createBackup` run: the value every
external interaction of the method would yield, in program order. -/
structure Env where
  /-- `configService.get('MONGO_URI')` -/
  mongoUri : Option String
  /-- value of `new Date().toISOString()` at the start of the run -/
  clockISO : String
  /-- outcome of the `mongodump` invocation -/
  dumpResult : CommandResult
  /-- `fs.existsSync(backupPath)` after `mongodump` completed -/
  dumpDirExists : Bool
  /-- `fs.readdirSync(backupPath).length` after `mongodump` completed -/
  dumpDirEntries : Nat
  /-- outcome of the `tar` invocation -/
  tarResult : CommandResult
  /-- outcome of `fs.readFileSync` on the `.tar.gz` artifact file -/
  archiveRead : FsRead
  /-- `configService.get('AWS_S3_BUCKET_NAME')` -/
  bucketName : Option String
  /-- outcome of `storageService.save(s3Params)` -/
  s3Result : S3Outcome
  /-- whether `fs.rmSync(backupPath, {recursive, force})` completes without raising -/
  rmDirOk : Bool
  /-- whether `fs.rmSync(finalBackupPath, {force})` completes without raising;
  it is the last cleanup action and its error is swallowed, so no observable
  behaviour of the run depends on it -/
  rmFileOk : Bool
  /-- value of `new Date().toISOString()` at the time the outermost catch
  block builds its failure result -/
  outerClockISO : String
  deriving DecidableEq

/-- External calls a run can issue, with the arguments the source passes. -/
inductive Event where
  | execMongodump (args : List String)
  | execTar (args : List String)
  | readFile (p : String)
  | s3Save (bucket key contentType : String) (size : Nat)
  | rmDirRecursive (p : String)
  | rmFile (p : String)
  deriving DecidableEq

/-- Bookkeeping marker: which point of `createBackup`'s control flow
produced the returned result.  `configMongoUri`, `readFailure` and
`bucketMissing` are the throw sites whose exceptions reach the outermost
catch block; the other failure markers are the early `return` statements. -/
inductive StopStage where
  | configMongoUri
  | dumpVerification
  | compressFailure
  | readFailure
  | bucketMissing
  | uploadFailure
  | completed
  deriving DecidableEq

/-- Full observable outcome of one run: the returned result, the trace of
external calls, and the control-flow marker. -/
structure RunOutcome where
  result : BackupResult
  trace : List Event
  stopped : StopStage
  deriving DecidableEq

/-- The scratch root (`private readonly tempDir = '/tmp'`). -/
def tempDir : String := "/tmp"

/-- Model of Node's `path.join(a, b)` for the simple segment arguments
this program uses (no trailing separators, no normalization needed). -/
def pathJoin (a b : String) : String := a ++ "/" ++ b

/-- Characters after the last `'/'` (helper for `path.basename`). -/
def basenameChars (cs : List Char) : List Char :=
  cs.foldl (fun acc c => if c = '/' then [] else acc ++ [c]) []

/-- Model of Node's `path.basename`. -/
def pathBasename (p : String) : String := String.mk (basenameChars p.data)

/-- Model of Node's `path.dirname`. -/
def pathDirname (p : String) : String :=
  match p.data.reverse.dropWhile (fun c => c ≠ '/') with
  | [] => "."
  | _ :: rest => if rest = [] then "/" else String.mk rest.reverse

/-- Model of `iso.replace(/[:.]/g, '-')`: every `':'` and `'.'` becomes `'-'`. -/
def formatTimestamp (iso : String) : String :=
  String.mk (iso.data.map (fun c => if c = ':' ∨ c = '.' then '-' else c))

/-- Message of the error `fs.readFileSync` raises when the path names a
directory (POSIX `EISDIR`); this is what happens on the `compress: false`
path, where `finalBackupPath` is still the dump directory. -/
def eisdirMessage : String := "EISDIR: illegal operation on a directory, read"

/-- Failure result built by the outermost catch block (lines 140-145):
fresh timestamp, empty id, the caught error's message. -/
def failureResult (ts msg : String) : BackupResult :=
  ⟨false, "", ts, none, none, some msg⟩

/-- The timestamp computed at line 30:
`options.timestamp ?? new Date().toISOString().replace(/[:.]/g, '-')`. -/
def startTimestamp (env : Env) (options : BackupOptions) : String :=
  options.timestamp.getD (formatTimestamp env.clockISO)

/-- The backup name computed at line 31:
`options.name ?? \x60mongodb-backup-${timestamp}\x60`. -/
def backupNameOf (env : Env) (options : BackupOptions) : String :=
  options.name.getD ("mongodb-backup-" ++ startTimestamp env options)

/-- The dump directory path computed at line 32:
`path.join(this.tempDir, backupName)`. -/
def backupPathOf (env : Env) (options : BackupOptions) : String :=
  pathJoin tempDir (backupNameOf env options)

/-- Lines 84-137 of the source: read the final artifact, resolve and
decode the bucket name, upload, clean up on success.  `backupPath` is the
dump directory, `finalBackupPath` the artifact handed to the upload
(equal to `backupPath` when compression was skipped), `evs` the trace
accumulated so far.  Reading `finalBackupPath` raises `EISDIR` when it is
the dump directory (compression skipped); otherwise the outcome of
reading the `.tar.gz` file is `env.archiveRead`.  Exceptions raised here
(read failure, missing bucket) propagate to the outermost catch, which
stamps the failure with a fresh clock reading. -/
def uploadAndCleanup (decode : String → String) (env : Env) (options : BackupOptions)
    (timestamp backupPath finalBackupPath : String) (evs : List Event) : RunOutcome :=
  let readEv := Event.readFile finalBackupPath
  let outcome := if options.compress = some false then FsRead.err eisdirMessage else env.archiveRead
  match outcome with
  | FsRead.err m =>
      ⟨failureResult env.outerClockISO m, evs ++ [readEv], StopStage.readFailure⟩
  | FsRead.ok bytes =>
      match env.bucketName with
      | none =>
          ⟨failureResult env.outerClockISO "S3 bucket name is not configured",
            evs ++ [readEv], StopStage.bucketMissing⟩
      | some bucketName =>
          let decodedBucketName := decode bucketName
          let s3Key := "backups/" ++ pathBasename finalBackupPath
          let contentType :=
            if options.compress = some false then "application/octet-stream"
            else "application/gzip"
          let saveEv := Event.s3Save decodedBucketName s3Key contentType bytes
          match env.s3Result with
          | S3Outcome.err m =>
              ⟨⟨false, "", timestamp, none, none,
                  some ("MongoDB backup was successful but S3 upload failed: " ++ m)⟩,
                evs ++ [readEv, saveEv], StopStage.uploadFailure⟩
          | S3Outcome.ok =>
              let cleanupEvs :=
                if options.compress = some false then
                  [Event.rmFile finalBackupPath]
                else if env.rmDirOk then
                  [Event.rmDirRecursive backupPath, Event.rmFile finalBackupPath]
                else
                  [Event.rmDirRecursive backupPath]
              ⟨⟨true, s3Key, timestamp, some bytes,
                  some ("s3://" ++ decodedBucketName ++ "/" ++ s3Key), none⟩,
                evs ++ [readEv, saveEv] ++ cleanupEvs, StopStage.completed⟩

/-- Shallow embedding of `MongoBackupProvider.createBackup`
(src/backup/providers/mongo.backup.provider.ts lines 28-147).
Control flow follows the source line by line: compute timestamp, name and
path; fail if `MONGO_URI` is missing (throw reaching the outer catch);
run `mongodump`; verify the dump directory exists and is non-empty,
ignoring the command's exit code; unless `options.compress === false` run
`tar` (from the parent directory, archiving the base name) and fail on a
non-zero result; then upload and clean up via `uploadAndCleanup`. -/
def createBackup (decode : String → String) (env : Env) (options : BackupOptions) : RunOutcome :=
  let timestamp := startTimestamp env options
  let backupPath := backupPathOf env options
  match env.mongoUri with
  | none =>
      ⟨failureResult env.outerClockISO "MongoDB URI is not configured", [],
        StopStage.configMongoUri⟩
  | some mongoUri =>
      let dumpEv := Event.execMongodump ["--uri=" ++ decode mongoUri, "--out=" ++ backupPath]
      if env.dumpDirExists = false ∨ env.dumpDirEntries = 0 then
        ⟨⟨false, "", timestamp, none, none,
            some ("MongoDB backup failed: " ++ env.dumpResult.stderr)⟩,
          [dumpEv], StopStage.dumpVerification⟩
      else if options.compress = some false then
        uploadAndCleanup decode env options timestamp backupPath backupPath [dumpEv]
      else
        let tarEv := Event.execTar ["-czf", backupPath ++ ".tar.gz", "-C",
            pathDirname backupPath, pathBasename backupPath]
        if env.tarResult.success = false then
          ⟨⟨false, "", timestamp, none, none,
              some ("Failed to compress backup: " ++ env.tarResult.stderr)⟩,
            [dumpEv, tarEv], StopStage.compressFailure⟩
        else
          uploadAndCleanup decode env options timestamp backupPath (backupPath ++ ".tar.gz")
            [dumpEv, tarEv]

/-- Is this event a scratch-file removal? -/
def isRmEvent : Event → Bool
  | Event.rmDirRecursive _ => true
  | Event.rmFile _ => true
  | _ => false

/-- Is this event the removal of the final artifact file? -/
def isRmFileEvent : Event → Bool
  | Event.rmFile _ => true
  | _ => false

/-- Is this event the recursive removal of the dump directory? -/
def isRmDirEvent : Event → Bool
  | Event.rmDirRecursive _ => true
  | _ => false

/-- Is this event the upload call to the object store? -/
def isSaveEvent : Event → Bool
  | Event.s3Save _ _ _ _ => true
  | _ => false

/-- Is this event the `mongodump` process execution? -/
def isDumpEvent : Event → Bool
  | Event.execMongodump _ => true
  | _ => false

/-- Is this event the `tar` process execution? -/
def isTarEvent : Event → Bool
  | Event.execTar _ => true
  | _ => false

/-- The object key as a pure function of the options and the timestamp in
use: `backups/` plus the base name of the final artifact path. -/
def derivedKey (options : BackupOptions) (t : String) : String :=
  "backups/" ++ pathBasename
    (pathJoin tempDir (options.name.getD ("mongodb-backup-" ++ t)) ++
      (if options.compress = some false then "" else ".tar.gz"))

/-- A string with no path separator (true of ISO-8601 clock readings). -/
def noSlash (s : String) : Prop := '/' ∉ s.data

instance (s : String) : Decidable (noSlash s) := by
  unfold noSlash
  infer_instance

/-- The artifact path after compression: `backupPath + '.tar.gz'`. -/
def finalPathOf (env : Env) (options : BackupOptions) : String :=
  backupPathOf env options ++ ".tar.gz"

/-- The `mongodump` invocation event of a run whose decoded URI is `du`. -/
def dumpEvOf (env : Env) (options : BackupOptions) (du : String) : Event :=
  Event.execMongodump ["--uri=" ++ du, "--out=" ++ backupPathOf env options]

/-- The `tar` invocation event of a run. -/
def tarEvOf (env : Env) (options : BackupOptions) : Event :=
  Event.execTar ["-czf", backupPathOf env options ++ ".tar.gz", "-C",
    pathDirname (backupPathOf env options), pathBasename (backupPathOf env options)]

/-- The object key of a run that reaches the upload (compressed artifact). -/
def keyOf (env : Env) (options : BackupOptions) : String :=
  "backups/" ++ pathBasename (finalPathOf env options)

theorem foldl_no_slash (ys : List Char) (acc : List Char) (h : '/' ∉ ys) :
    List.foldl (fun acc c => if c = '/' then [] else acc ++ [c]) acc ys = acc ++ ys := by
  induction ys generalizing acc with
  | nil => simp
  | cons y ys ih =>
      have hy : y ≠ '/' := by
        intro he; exact h (he ▸ List.mem_cons_self y ys)
      have hys : '/' ∉ ys := fun hm => h (List.mem_cons_of_mem _ hm)
      rw [List.foldl_cons, if_neg hy, ih _ hys, List.append_assoc, List.singleton_append]

theorem basenameChars_append (xs ys : List Char) (h : '/' ∉ ys) :
    basenameChars (xs ++ ys) = basenameChars xs ++ ys := by
  unfold basenameChars
  rw [List.foldl_append, foldl_no_slash ys _ h]

theorem pathBasename_join (n : String) (h : noSlash n) :
    pathBasename (pathJoin tempDir n) = n := by
  unfold pathBasename pathJoin tempDir
  have hd : ("/tmp" ++ "/" ++ n).data = "/tmp/".data ++ n.data := rfl
  rw [hd, basenameChars_append _ _ h]
  have : basenameChars "/tmp/".data = [] := by decide
  rw [this, List.nil_append]

theorem pathBasename_join_tar (n : String) (h : noSlash n) :
    pathBasename (pathJoin tempDir n ++ ".tar.gz") = n ++ ".tar.gz" := by
  unfold pathBasename pathJoin tempDir
  have hd : ("/tmp" ++ "/" ++ n ++ ".tar.gz").data = "/tmp/".data ++ (n.data ++ ".tar.gz".data) := by
    simp [String.data_append, List.append_assoc]
  have hns : '/' ∉ n.data ++ ".tar.gz".data := by
    intro hm
    rcases List.mem_append.mp hm with hm | hm
    · exact h hm
    · revert hm; decide
  rw [hd, basenameChars_append _ _ hns]
  have : basenameChars "/tmp/".data = [] := by decide
  rw [this, List.nil_append]
  rfl

theorem noSlash_formatTimestamp (s : String) (h : noSlash s) :
    noSlash (formatTimestamp s) := by
  unfold noSlash formatTimestamp at *
  intro hm
  rcases List.mem_map.mp hm with ⟨c, hc, he⟩
  by_cases h1 : c = ':' ∨ c = '.'
  · rw [if_pos h1] at he; exact absurd he (by decide)
  · rw [if_neg h1] at he; exact h (he ▸ hc)

theorem run_uriNone (decode : String → String) (env : Env) (opts : BackupOptions)
    (h : env.mongoUri = none) :
    createBackup decode env opts =
      ⟨failureResult env.outerClockISO "MongoDB URI is not configured", [],
        StopStage.configMongoUri⟩ := by
  simp [createBackup, h]

theorem run_dumpFail (decode : String → String) (env : Env) (opts : BackupOptions) (u : String)
    (hu : env.mongoUri = some u)
    (hd : env.dumpDirExists = false ∨ env.dumpDirEntries = 0) :
    createBackup decode env opts =
      ⟨⟨false, "", startTimestamp env opts, none, none,
          some ("MongoDB backup failed: " ++ env.dumpResult.stderr)⟩,
        [dumpEvOf env opts (decode u)], StopStage.dumpVerification⟩ := by
  simp only [createBackup, hu]
  rw [if_pos hd]
  rfl

theorem run_noCompress (decode : String → String) (env : Env) (opts : BackupOptions) (u : String)
    (hu : env.mongoUri = some u) (hx : env.dumpDirExists = true) (hn : env.dumpDirEntries ≠ 0)
    (hc : opts.compress = some false) :
    createBackup decode env opts =
      ⟨failureResult env.outerClockISO eisdirMessage,
        [dumpEvOf env opts (decode u), Event.readFile (backupPathOf env opts)],
        StopStage.readFailure⟩ := by
  simp only [createBackup, hu]
  rw [if_neg (by simp [hx, hn]), if_pos hc]
  simp [uploadAndCleanup, hc, dumpEvOf]

theorem run_tarFail (decode : String → String) (env : Env) (opts : BackupOptions) (u : String)
    (hu : env.mongoUri = some u) (hx : env.dumpDirExists = true) (hn : env.dumpDirEntries ≠ 0)
    (hc : opts.compress ≠ some false) (ht : env.tarResult.success = false) :
    createBackup decode env opts =
      ⟨⟨false, "", startTimestamp env opts, none, none,
          some ("Failed to compress backup: " ++ env.tarResult.stderr)⟩,
        [dumpEvOf env opts (decode u), tarEvOf env opts], StopStage.compressFailure⟩ := by
  simp only [createBackup, hu]
  rw [if_neg (by simp [hx, hn]), if_neg hc, if_pos ht]
  rfl

theorem run_readErr (decode : String → String) (env : Env) (opts : BackupOptions) (u m : String)
    (hu : env.mongoUri = some u) (hx : env.dumpDirExists = true) (hn : env.dumpDirEntries ≠ 0)
    (hc : opts.compress ≠ some false) (ht : env.tarResult.success = true)
    (hr : env.archiveRead = FsRead.err m) :
    createBackup decode env opts =
      ⟨failureResult env.outerClockISO m,
        [dumpEvOf env opts (decode u), tarEvOf env opts, Event.readFile (finalPathOf env opts)],
        StopStage.readFailure⟩ := by
  simp only [createBackup, hu]
  rw [if_neg (by simp [hx, hn]), if_neg hc, if_neg (by simp [ht])]
  simp [uploadAndCleanup, hc, hr, dumpEvOf, tarEvOf, finalPathOf]

theorem run_bucketNone (decode : String → String) (env : Env) (opts : BackupOptions)
    (u : String) (n : Nat)
    (hu : env.mongoUri = some u) (hx : env.dumpDirExists = true) (hn : env.dumpDirEntries ≠ 0)
    (hc : opts.compress ≠ some false) (ht : env.tarResult.success = true)
    (hr : env.archiveRead = FsRead.ok n) (hb : env.bucketName = none) :
    createBackup decode env opts =
      ⟨failureResult env.outerClockISO "S3 bucket name is not configured",
        [dumpEvOf env opts (decode u), tarEvOf env opts, Event.readFile (finalPathOf env opts)],
        StopStage.bucketMissing⟩ := by
  simp only [createBackup, hu]
  rw [if_neg (by simp [hx, hn]), if_neg hc, if_neg (by simp [ht])]
  simp [uploadAndCleanup, hc, hr, hb, dumpEvOf, tarEvOf, finalPathOf]

theorem run_s3Err (decode : String → String) (env : Env) (opts : BackupOptions)
    (u b m : String) (n : Nat)
    (hu : env.mongoUri = some u) (hx : env.dumpDirExists = true) (hn : env.dumpDirEntries ≠ 0)
    (hc : opts.compress ≠ some false) (ht : env.tarResult.success = true)
    (hr : env.archiveRead = FsRead.ok n) (hb : env.bucketName = some b)
    (hs : env.s3Result = S3Outcome.err m) :
    createBackup decode env opts =
      ⟨⟨false, "", startTimestamp env opts, none, none,
          some ("MongoDB backup was successful but S3 upload failed: " ++ m)⟩,
        [dumpEvOf env opts (decode u), tarEvOf env opts, Event.readFile (finalPathOf env opts),
          Event.s3Save (decode b) (keyOf env opts) "application/gzip" n],
        StopStage.uploadFailure⟩ := by
  simp only [createBackup, hu]
  rw [if_neg (by simp [hx, hn]), if_neg hc, if_neg (by simp [ht])]
  simp [uploadAndCleanup, hc, hr, hb, hs, dumpEvOf, tarEvOf, finalPathOf, keyOf]

theorem run_s3Ok (decode : String → String) (env : Env) (opts : BackupOptions)
    (u b : String) (n : Nat)
    (hu : env.mongoUri = some u) (hx : env.dumpDirExists = true) (hn : env.dumpDirEntries ≠ 0)
    (hc : opts.compress ≠ some false) (ht : env.tarResult.success = true)
    (hr : env.archiveRead = FsRead.ok n) (hb : env.bucketName = some b)
    (hs : env.s3Result = S3Outcome.ok) :
    createBackup decode env opts =
      ⟨⟨true, keyOf env opts, startTimestamp env opts, some n,
          some ("s3://" ++ decode b ++ "/" ++ keyOf env opts), none⟩,
        [dumpEvOf env opts (decode u), tarEvOf env opts, Event.readFile (finalPathOf env opts),
          Event.s3Save (decode b) (keyOf env opts) "application/gzip" n] ++
          (if env.rmDirOk then
            [Event.rmDirRecursive (backupPathOf env opts), Event.rmFile (finalPathOf env opts)]
          else
            [Event.rmDirRecursive (backupPathOf env opts)]),
        StopStage.completed⟩ := by
  simp only [createBackup, hu]
  rw [if_neg (by simp [hx, hn]), if_neg hc, if_neg (by simp [ht])]
  by_cases hrm : env.rmDirOk
  · simp [uploadAndCleanup, hc, hr, hb, hs, hrm, dumpEvOf, tarEvOf, finalPathOf, keyOf]
  · simp [uploadAndCleanup, hc, hr, hb, hs, hrm, dumpEvOf, tarEvOf, finalPathOf, keyOf]

theorem run_proceedNC (decode : String → String) (env : Env) (opts : BackupOptions) (u : String)
    (hu : env.mongoUri = some u) (hx : env.dumpDirExists = true) (hn : env.dumpDirEntries ≠ 0)
    (hc : opts.compress = some false) :
    createBackup decode env opts =
      uploadAndCleanup decode env opts (startTimestamp env opts) (backupPathOf env opts)
        (backupPathOf env opts) [dumpEvOf env opts (decode u)] := by
  simp only [createBackup, hu]
  rw [if_neg (by simp [hx, hn]), if_pos hc]
  rfl

theorem run_proceed (decode : String → String) (env : Env) (opts : BackupOptions) (u : String)
    (hu : env.mongoUri = some u) (hx : env.dumpDirExists = true) (hn : env.dumpDirEntries ≠ 0)
    (hc : opts.compress ≠ some false) (ht : env.tarResult.success = true) :
    createBackup decode env opts =
      uploadAndCleanup decode env opts (startTimestamp env opts) (backupPathOf env opts)
        (finalPathOf env opts) [dumpEvOf env opts (decode u), tarEvOf env opts] := by
  simp only [createBackup, hu]
  rw [if_neg (by simp [hx, hn]), if_neg hc, if_neg (by simp [ht])]
  rfl

theorem uploadAndCleanup_stopped (decode : String → String) (env : Env) (opts : BackupOptions)
    (ts bp fp : String) (evs : List Event) :
    (uploadAndCleanup decode env opts ts bp fp evs).stopped = StopStage.readFailure ∨
    (uploadAndCleanup decode env opts ts bp fp evs).stopped = StopStage.bucketMissing ∨
    (uploadAndCleanup decode env opts ts bp fp evs).stopped = StopStage.uploadFailure ∨
    (uploadAndCleanup decode env opts ts bp fp evs).stopped = StopStage.completed := by
  simp only [uploadAndCleanup]
  cases h : (if opts.compress = some false then FsRead.err eisdirMessage else env.archiveRead) with
  | err m => simp
  | ok n =>
      cases env.bucketName with
      | none => simp
      | some b =>
          cases env.s3Result with
          | ok => simp
          | err m => simp

/-- Exhaustive split of the external world along the eight control-flow
paths of `createBackup`; each disjunct packages the hypotheses of the
corresponding evaluation lemma. -/
theorem run_cases (env : Env) (opts : BackupOptions) :
    env.mongoUri = none
    ∨ (∃ u, env.mongoUri = some u ∧ (env.dumpDirExists = false ∨ env.dumpDirEntries = 0))
    ∨ (∃ u, env.mongoUri = some u ∧ env.dumpDirExists = true ∧ env.dumpDirEntries ≠ 0 ∧
        opts.compress = some false)
    ∨ (∃ u, env.mongoUri = some u ∧ env.dumpDirExists = true ∧ env.dumpDirEntries ≠ 0 ∧
        opts.compress ≠ some false ∧ env.tarResult.success = false)
    ∨ (∃ u m, env.mongoUri = some u ∧ env.dumpDirExists = true ∧ env.dumpDirEntries ≠ 0 ∧
        opts.compress ≠ some false ∧ env.tarResult.success = true ∧
        env.archiveRead = FsRead.err m)
    ∨ (∃ u n, env.mongoUri = some u ∧ env.dumpDirExists = true ∧ env.dumpDirEntries ≠ 0 ∧
        opts.compress ≠ some false ∧ env.tarResult.success = true ∧
        env.archiveRead = FsRead.ok n ∧ env.bucketName = none)
    ∨ (∃ u n b m, env.mongoUri = some u ∧ env.dumpDirExists = true ∧ env.dumpDirEntries ≠ 0 ∧
        opts.compress ≠ some false ∧ env.tarResult.success = true ∧
        env.archiveRead = FsRead.ok n ∧ env.bucketName = some b ∧
        env.s3Result = S3Outcome.err m)
    ∨ (∃ u n b, env.mongoUri = some u ∧ env.dumpDirExists = true ∧ env.dumpDirEntries ≠ 0 ∧
        opts.compress ≠ some false ∧ env.tarResult.success = true ∧
        env.archiveRead = FsRead.ok n ∧ env.bucketName = some b ∧
        env.s3Result = S3Outcome.ok) := by
  cases hu : env.mongoUri with
  | none => exact Or.inl rfl
  | some u =>
      by_cases hd : env.dumpDirExists = false ∨ env.dumpDirEntries = 0
      · exact Or.inr (Or.inl ⟨u, rfl, hd⟩)
      · have hx : env.dumpDirExists = true := by
          cases hb : env.dumpDirExists
          · exact absurd (Or.inl hb) hd
          · rfl
        have hn : env.dumpDirEntries ≠ 0 := fun h0 => hd (Or.inr h0)
        by_cases hc : opts.compress = some false
        · exact Or.inr (Or.inr (Or.inl ⟨u, rfl, hx, hn, hc⟩))
        · cases ht : env.tarResult.success with
          | false => exact Or.inr (Or.inr (Or.inr (Or.inl ⟨u, rfl, hx, hn, hc, rfl⟩)))
          | true =>
              cases hr : env.archiveRead with
              | err m =>
                  exact Or.inr (Or.inr (Or.inr (Or.inr (Or.inl ⟨u, m, rfl, hx, hn, hc, rfl, rfl⟩))))
              | ok n =>
                  cases hb : env.bucketName with
                  | none =>
                      exact Or.inr (Or.inr (Or.inr (Or.inr (Or.inr (Or.inl
                        ⟨u, n, rfl, hx, hn, hc, rfl, rfl, rfl⟩)))))
                  | some b =>
                      cases hs : env.s3Result with
                      | err m =>
                          exact Or.inr (Or.inr (Or.inr (Or.inr (Or.inr (Or.inr (Or.inl
                            ⟨u, n, b, m, rfl, hx, hn, hc, rfl, rfl, rfl, rfl⟩))))))
                      | ok =>
                          exact Or.inr (Or.inr (Or.inr (Or.inr (Or.inr (Or.inr (Or.inr
                            ⟨u, n, b, rfl, hx, hn, hc, rfl, rfl, rfl, rfl⟩))))))

theorem append_ne_empty (s t : String) (h : s ≠ "") : s ++ t ≠ "" := by
  intro he
  apply h
  have hd : s.data ++ t.data = [] := by
    have := congrArg String.data he
    rwa [String.data_append] at this
  have h1 : s.data = [] := (List.append_eq_nil.mp hd).1
  exact String.ext h1

theorem noSlash_append (s t : String) (hs : noSlash s) (ht : noSlash t) :
    noSlash (s ++ t) := by
  unfold noSlash at *
  rw [String.data_append]
  intro hm
  rcases List.mem_append.mp hm with hm | hm
  · exact hs hm
  · exact ht hm

theorem mem_uploadAndCleanup_trace (decode : String → String) (env : Env)
    (opts : BackupOptions) (ts bp fp : String) (evs : List Event) (e : Event)
    (he : e ∈ evs) :
    e ∈ (uploadAndCleanup decode env opts ts bp fp evs).trace := by
  simp only [uploadAndCleanup]
  cases h : (if opts.compress = some false then FsRead.err eisdirMessage else env.archiveRead) with
  | err m => simp [he]
  | ok n =>
      cases env.bucketName with
      | none => simp [he]
      | some b =>
          cases env.s3Result with
          | ok => simp [he]
          | err m => simp [he]

theorem readFile_mem_uploadAndCleanup (decode : String → String) (env : Env)
    (opts : BackupOptions) (ts bp fp : String) (evs : List Event) :
    Event.readFile fp ∈ (uploadAndCleanup decode env opts ts bp fp evs).trace := by
  simp only [uploadAndCleanup]
  cases h : (if opts.compress = some false then FsRead.err eisdirMessage else env.archiveRead) with
  | err m => simp
  | ok n =>
      cases env.bucketName with
      | none => simp
      | some b =>
          cases env.s3Result with
          | ok => simp
          | err m => simp

/-- The identity decoding, standing in for `Buffer.from(s, 'base64')` on
values that decode to themselves in the concrete test worlds below. -/
def idDecode : String → String := fun s => s

/-- Options with every field omitted (the default invocation). -/
def opts0 : BackupOptions := ⟨none, none, none, none⟩

/-- Options fixing only the timestamp (short literals for evaluation). -/
def optsTS : BackupOptions := ⟨none, some "TS", none, none⟩

/-- Options fixing the timestamp and disabling compression. -/
def optsNC : BackupOptions := ⟨none, some "TS", none, some false⟩

/-- A world where every stage succeeds; `mongodump` exits nonzero (with
`success = false`) yet the dump directory exists with 3 entries. -/
def envOk : Env :=
  ⟨some "m", "2024-01-02T03:04:05.678Z", ⟨"", "warn", 1, false⟩, true, 3,
    ⟨"", "", 0, true⟩, FsRead.ok 42, some "bkt", S3Outcome.ok, true, true,
    "2099-01-01T00:00:00.000Z"⟩

/-- Like `envOk` but the bucket-name setting is absent. -/
def envNoBucket : Env :=
  ⟨some "m", "2024-01-02T03:04:05.678Z", ⟨"", "warn", 1, false⟩, true, 3,
    ⟨"", "", 0, true⟩, FsRead.ok 42, none, S3Outcome.ok, true, true,
    "2099-01-01T00:00:00.000Z"⟩

/-- Like `envOk` but the recursive removal of the dump directory raises. -/
def envRmFail : Env :=
  ⟨some "m", "2024-01-02T03:04:05.678Z", ⟨"", "warn", 1, false⟩, true, 3,
    ⟨"", "", 0, true⟩, FsRead.ok 42, some "bkt", S3Outcome.ok, false, true,
    "2099-01-01T00:00:00.000Z"⟩

/-- Like `envOk` but the MongoDB URI setting is absent. -/
def envNoUri : Env :=
  ⟨none, "2024-01-02T03:04:05.678Z", ⟨"", "", 0, true⟩, true, 3,
    ⟨"", "", 0, true⟩, FsRead.ok 42, some "bkt", S3Outcome.ok, true, true,
    "2099-01-01T00:00:00.000Z"⟩

/-- Like `envOk` but reading the artifact yields an empty (0-byte) buffer. -/
def envZeroBytes : Env :=
  ⟨some "m", "2024-01-02T03:04:05.678Z", ⟨"", "warn", 1, false⟩, true, 3,
    ⟨"", "", 0, true⟩, FsRead.ok 0, some "bkt", S3Outcome.ok, true, true,
    "2099-01-01T00:00:00.000Z"⟩

/-- Like `envOk` but the S3 upload rejects. -/
def envS3Err : Env :=
  ⟨some "m", "2024-01-02T03:04:05.678Z", ⟨"", "warn", 1, false⟩, true, 3,
    ⟨"", "", 0, true⟩, FsRead.ok 42, some "bkt", S3Outcome.err "boom", true, true,
    "2099-01-01T00:00:00.000Z"⟩

/-- Two fully succeeding worlds differing only in the clock reading. -/
def envClockA : Env :=
  ⟨some "m", "AAAA", ⟨"", "warn", 1, false⟩, true, 3,
    ⟨"", "", 0, true⟩, FsRead.ok 42, some "bkt", S3Outcome.ok, true, true,
    "2099-01-01T00:00:00.000Z"⟩

/-- See `envClockA`. -/
def envClockB : Env :=
  ⟨some "m", "BBBB", ⟨"", "warn", 1, false⟩, true, 3,
    ⟨"", "", 0, true⟩, FsRead.ok 42, some "bkt", S3Outcome.ok, true, true,
    "2099-01-01T00:00:00.000Z"⟩

/-- C1: on every run that reaches the dump command (the MongoDB URI is
configured), the dump stage succeeds — the run proceeds past the dump
verification — if and only if, after the dump command completes, the
target backup directory exists and contains at least one entry.  The
theorem quantifies over every `env.dumpResult`, so the command's exit
code and success flag play no part in either direction: a zero exit code
with an empty directory fails and a non-zero exit code with a non-empty
directory succeeds.  On verification failure the run returns a failure
result whose error message is `MongoDB backup failed: ` followed by the
captured stderr of the dump command (hence contains that stderr). -/
theorem dump_stage_verification (decode : String → String) (env : Env) (opts : BackupOptions)
    (u : String) (hu : env.mongoUri = some u) :
    ((env.dumpDirExists = true ∧ env.dumpDirEntries ≠ 0) ↔
      (createBackup decode env opts).stopped ≠ StopStage.dumpVerification)
    ∧ ((createBackup decode env opts).stopped = StopStage.dumpVerification →
        (createBackup decode env opts).result.success = false ∧
          (createBackup decode env opts).result.error =
            some ("MongoDB backup failed: " ++ env.dumpResult.stderr)) := by
  by_cases hd : env.dumpDirExists = false ∨ env.dumpDirEntries = 0
  · rw [run_dumpFail decode env opts u hu hd]
    refine ⟨⟨fun hx => ?_, fun hne => absurd rfl hne⟩, fun _ => ⟨rfl, rfl⟩⟩
    rcases hd with hd | hd
    · rw [hx.1] at hd
      exact absurd hd (by simp)
    · exact absurd hd hx.2
  · have hx : env.dumpDirExists = true := by
      cases hb : env.dumpDirExists
      · exact absurd (Or.inl hb) hd
      · rfl
    have hn : env.dumpDirEntries ≠ 0 := fun h0 => hd (Or.inr h0)
    have key : (createBackup decode env opts).stopped ≠ StopStage.dumpVerification := by
      by_cases hc : opts.compress = some false
      · rw [run_proceedNC decode env opts u hu hx hn hc]
        rcases uploadAndCleanup_stopped decode env opts (startTimestamp env opts)
            (backupPathOf env opts) (backupPathOf env opts)
            [dumpEvOf env opts (decode u)] with h | h | h | h <;> rw [h] <;> simp
      · cases ht : env.tarResult.success with
        | false =>
            rw [run_tarFail decode env opts u hu hx hn hc ht]
            simp
        | true =>
            rw [run_proceed decode env opts u hu hx hn hc ht]
            rcases uploadAndCleanup_stopped decode env opts (startTimestamp env opts)
                (backupPathOf env opts) (finalPathOf env opts)
                [dumpEvOf env opts (decode u), tarEvOf env opts] with h | h | h | h <;>
              rw [h] <;> simp
    exact ⟨⟨fun _ => key, fun _ => ⟨hx, hn⟩⟩, fun hcontra => absurd hcontra key⟩

/-- Witness for C1 at a concrete world: `mongodump` exits 1 with
`success = false`, yet the directory exists with 3 entries, so the run
proceeds past the dump verification. -/
theorem dump_stage_verification_witness :
    ((envOk.dumpDirExists = true ∧ envOk.dumpDirEntries ≠ 0) ↔
      (createBackup idDecode envOk opts0).stopped ≠ StopStage.dumpVerification)
    ∧ ((createBackup idDecode envOk opts0).stopped = StopStage.dumpVerification →
        (createBackup idDecode envOk opts0).result.success = false ∧
          (createBackup idDecode envOk opts0).result.error =
            some ("MongoDB backup failed: " ++ envOk.dumpResult.stderr)) :=
  dump_stage_verification idDecode envOk opts0 "m" rfl

/-- C2: no scratch-file removal is performed unless the upload succeeded:
any removal event in the trace implies the object-store save resolved,
and whenever the save rejects the run returns a failure result and the
trace carries no removal event at all (the dump directory and the final
artifact remain on disk). -/
theorem cleanup_only_after_upload (decode : String → String) (env : Env)
    (opts : BackupOptions) :
    ((createBackup decode env opts).trace.any isRmEvent = true →
        env.s3Result = S3Outcome.ok)
    ∧ (env.s3Result ≠ S3Outcome.ok →
        (createBackup decode env opts).result.success = false ∧
          (createBackup decode env opts).trace.any isRmEvent = false) := by
  rcases run_cases env opts with h | ⟨u, hu, hd⟩ | ⟨u, hu, hx, hn, hc⟩
    | ⟨u, hu, hx, hn, hc, ht⟩ | ⟨u, m, hu, hx, hn, hc, ht, hr⟩
    | ⟨u, n, hu, hx, hn, hc, ht, hr, hb⟩ | ⟨u, n, b, m, hu, hx, hn, hc, ht, hr, hb, hs⟩
    | ⟨u, n, b, hu, hx, hn, hc, ht, hr, hb, hs⟩
  · rw [run_uriNone decode env opts h]
    simp [isRmEvent, failureResult]
  · rw [run_dumpFail decode env opts u hu hd]
    simp [isRmEvent, dumpEvOf]
  · rw [run_noCompress decode env opts u hu hx hn hc]
    simp [isRmEvent, dumpEvOf, failureResult]
  · rw [run_tarFail decode env opts u hu hx hn hc ht]
    simp [isRmEvent, dumpEvOf, tarEvOf]
  · rw [run_readErr decode env opts u m hu hx hn hc ht hr]
    simp [isRmEvent, dumpEvOf, tarEvOf, failureResult]
  · rw [run_bucketNone decode env opts u n hu hx hn hc ht hr hb]
    simp [isRmEvent, dumpEvOf, tarEvOf, failureResult]
  · rw [run_s3Err decode env opts u b m n hu hx hn hc ht hr hb hs]
    simp [isRmEvent, dumpEvOf, tarEvOf, hs]
  · rw [run_s3Ok decode env opts u b n hu hx hn hc ht hr hb hs]
    simp [hs]

/-- Witness for C2 at a concrete world whose S3 upload rejects: the run
fails and its trace carries no removal event. -/
theorem cleanup_only_after_upload_witness :
    ((createBackup idDecode envS3Err optsTS).trace.any isRmEvent = true →
        envS3Err.s3Result = S3Outcome.ok)
    ∧ (envS3Err.s3Result ≠ S3Outcome.ok →
        (createBackup idDecode envS3Err optsTS).result.success = false ∧
          (createBackup idDecode envS3Err optsTS).trace.any isRmEvent = false) :=
  cleanup_only_after_upload idDecode envS3Err optsTS

/-- C3 counterexample: in a world where every stage succeeds but the
artifact file read back before upload is empty (0 bytes), `createBackup`
returns the success variant with `size = some 0`, refuting the claim
that `success = true` implies a size greater than zero. -/
theorem result_invariant_counterexample :
    (createBackup idDecode envZeroBytes optsTS).result.success = true ∧
    (createBackup idDecode envZeroBytes optsTS).result.size = some 0 := by
  exact ⟨rfl, rfl⟩

/-- C3 amended: every result satisfies the tagged-outcome invariant with
`size > 0` weakened to `size` present (the artifact's byte length, zero
exactly when the artifact file read back is empty): `success = true`
implies the identifier is non-empty, the size is present, the location is
`s3://` + decoded bucket + `/` + identifier (so it starts with the scheme
and contains the identifier) and no error is present; `success = false`
implies the identifier is empty, size and location are absent, and the
error is present and non-empty provided the artifact-read error message
is non-empty (all other failure messages are constants or are prefixed
with non-empty text by the source). -/
theorem result_invariant_amended (decode : String → String) (env : Env)
    (opts : BackupOptions) (hread : env.archiveRead ≠ FsRead.err "") :
    ((createBackup decode env opts).result.success = true →
        (createBackup decode env opts).result.backupId ≠ "" ∧
        (createBackup decode env opts).result.size.isSome = true ∧
        (createBackup decode env opts).result.location =
          some ("s3://" ++ decode (env.bucketName.getD "") ++ "/" ++
            (createBackup decode env opts).result.backupId) ∧
        (createBackup decode env opts).result.error = none)
    ∧ ((createBackup decode env opts).result.success = false →
        (createBackup decode env opts).result.backupId = "" ∧
        (createBackup decode env opts).result.size = none ∧
        (createBackup decode env opts).result.location = none ∧
        (createBackup decode env opts).result.error ≠ none ∧
        (createBackup decode env opts).result.error ≠ some "") := by
  rcases run_cases env opts with h | ⟨u, hu, hd⟩ | ⟨u, hu, hx, hn, hc⟩
    | ⟨u, hu, hx, hn, hc, ht⟩ | ⟨u, m, hu, hx, hn, hc, ht, hr⟩
    | ⟨u, n, hu, hx, hn, hc, ht, hr, hb⟩ | ⟨u, n, b, m, hu, hx, hn, hc, ht, hr, hb, hs⟩
    | ⟨u, n, b, hu, hx, hn, hc, ht, hr, hb, hs⟩
  · rw [run_uriNone decode env opts h]
    refine ⟨fun habs => absurd habs (by simp [failureResult]), fun _ => ⟨rfl, rfl, rfl, ?_, ?_⟩⟩
    · simp [failureResult]
    · simp [failureResult]
  · rw [run_dumpFail decode env opts u hu hd]
    refine ⟨fun habs => absurd habs (by simp), fun _ => ⟨rfl, rfl, rfl, by simp, ?_⟩⟩
    intro he
    exact append_ne_empty "MongoDB backup failed: " env.dumpResult.stderr (by decide)
      (Option.some.inj he)
  · rw [run_noCompress decode env opts u hu hx hn hc]
    refine ⟨fun habs => absurd habs (by simp [failureResult]), fun _ => ⟨rfl, rfl, rfl, ?_, ?_⟩⟩
    · simp [failureResult]
    · simp [failureResult, eisdirMessage]
  · rw [run_tarFail decode env opts u hu hx hn hc ht]
    refine ⟨fun habs => absurd habs (by simp), fun _ => ⟨rfl, rfl, rfl, by simp, ?_⟩⟩
    intro he
    exact append_ne_empty "Failed to compress backup: " env.tarResult.stderr (by decide)
      (Option.some.inj he)
  · rw [run_readErr decode env opts u m hu hx hn hc ht hr]
    refine ⟨fun habs => absurd habs (by simp [failureResult]), fun _ => ⟨rfl, rfl, rfl, ?_, ?_⟩⟩
    · simp [failureResult]
    · intro he
      apply hread
      rw [hr, Option.some.inj he]
  · rw [run_bucketNone decode env opts u n hu hx hn hc ht hr hb]
    refine ⟨fun habs => absurd habs (by simp [failureResult]), fun _ => ⟨rfl, rfl, rfl, ?_, ?_⟩⟩
    · simp [failureResult]
    · simp [failureResult]
  · rw [run_s3Err decode env opts u b m n hu hx hn hc ht hr hb hs]
    refine ⟨fun habs => absurd habs (by simp), fun _ => ⟨rfl, rfl, rfl, by simp, ?_⟩⟩
    intro he
    exact append_ne_empty "MongoDB backup was successful but S3 upload failed: " m (by decide)
      (Option.some.inj he)
  · rw [run_s3Ok decode env opts u b n hu hx hn hc ht hr hb hs]
    refine ⟨fun _ => ⟨?_, rfl, ?_, rfl⟩, fun habs => absurd habs (by simp)⟩
    · exact append_ne_empty "backups/" (pathBasename (finalPathOf env opts)) (by decide)
    · simp [hb, keyOf]

/-- Witness for C3 amended at the fully succeeding world `envOk`. -/
theorem result_invariant_amended_witness :
    ((createBackup idDecode envOk opts0).result.success = true →
        (createBackup idDecode envOk opts0).result.backupId ≠ "" ∧
        (createBackup idDecode envOk opts0).result.size.isSome = true ∧
        (createBackup idDecode envOk opts0).result.location =
          some ("s3://" ++ idDecode (envOk.bucketName.getD "") ++ "/" ++
            (createBackup idDecode envOk opts0).result.backupId) ∧
        (createBackup idDecode envOk opts0).result.error = none)
    ∧ ((createBackup idDecode envOk opts0).result.success = false →
        (createBackup idDecode envOk opts0).result.backupId = "" ∧
        (createBackup idDecode envOk opts0).result.size = none ∧
        (createBackup idDecode envOk opts0).result.location = none ∧
        (createBackup idDecode envOk opts0).result.error ≠ none ∧
        (createBackup idDecode envOk opts0).result.error ≠ some "") :=
  result_invariant_amended idDecode envOk opts0 (by decide)

/-- C4 counterexample: in a concrete world whose bucket-name setting is
absent but where every earlier stage succeeds, the run does return the
failure result with the bucket-not-configured message — yet its trace
contains both the `mongodump` and the `tar` process executions,
refuting the claim that no process execution occurs in such a run. -/
theorem bucket_missing_counterexample :
    (createBackup idDecode envNoBucket optsTS).result.success = false ∧
    (createBackup idDecode envNoBucket optsTS).result.error =
      some "S3 bucket name is not configured" ∧
    (createBackup idDecode envNoBucket optsTS).trace.any isDumpEvent = true ∧
    (createBackup idDecode envNoBucket optsTS).trace.any isTarEvent = true := by
  refine ⟨rfl, rfl, rfl, rfl⟩

/-- C4 amended: the bucket-name setting is only read after the dump has
been produced, compressed and read into memory, so on a run that reaches
that point with the setting absent, the run returns a failure result
whose error text is `S3 bucket name is not configured` (a plain thrown
`Error` normalized by the outermost catch, which stamps it with a fresh
clock reading), no upload call to the object store occurs — but the dump
and archive commands have already executed. -/
theorem bucket_missing_amended (decode : String → String) (env : Env)
    (opts : BackupOptions) (u : String) (n : Nat)
    (hu : env.mongoUri = some u) (hx : env.dumpDirExists = true)
    (hn : env.dumpDirEntries ≠ 0) (hc : opts.compress ≠ some false)
    (ht : env.tarResult.success = true) (hr : env.archiveRead = FsRead.ok n)
    (hb : env.bucketName = none) :
    (createBackup decode env opts).result.success = false ∧
    (createBackup decode env opts).result.backupId = "" ∧
    (createBackup decode env opts).result.error =
      some "S3 bucket name is not configured" ∧
    (createBackup decode env opts).result.timestamp = env.outerClockISO ∧
    (createBackup decode env opts).trace.any isSaveEvent = false ∧
    (createBackup decode env opts).trace.any isDumpEvent = true ∧
    (createBackup decode env opts).trace.any isTarEvent = true := by
  rw [run_bucketNone decode env opts u n hu hx hn hc ht hr hb]
  simp [failureResult, isSaveEvent, isDumpEvent, isTarEvent, dumpEvOf, tarEvOf]

/-- Witness for C4 amended at the concrete world `envNoBucket`. -/
theorem bucket_missing_amended_witness :
    (createBackup idDecode envNoBucket optsTS).result.success = false ∧
    (createBackup idDecode envNoBucket optsTS).result.backupId = "" ∧
    (createBackup idDecode envNoBucket optsTS).result.error =
      some "S3 bucket name is not configured" ∧
    (createBackup idDecode envNoBucket optsTS).result.timestamp =
      envNoBucket.outerClockISO ∧
    (createBackup idDecode envNoBucket optsTS).trace.any isSaveEvent = false ∧
    (createBackup idDecode envNoBucket optsTS).trace.any isDumpEvent = true ∧
    (createBackup idDecode envNoBucket optsTS).trace.any isTarEvent = true :=
  bucket_missing_amended idDecode envNoBucket optsTS "m" 42 rfl rfl (by decide)
    (by decide) rfl rfl rfl

/-- C5: on every run that passes dump verification, the compress stage
with flag `false` executes no archive command and hands the original dump
directory path unchanged to the next stage (the whole-file read targets
that path); with the flag `true` or omitted it runs the archive command
with the `-C` working-directory argument set to the parent of the dump
directory and the directory's base name as the entry to archive, and on
success hands `<dump-path>.tar.gz` to the next stage; if the archive
command reports a non-zero result the run returns a failure result
carrying the captured stderr and the trace has no removal event (the
uncompressed directory is left in place). -/
theorem compress_stage_contract (decode : String → String) (env : Env)
    (opts : BackupOptions) (u : String)
    (hu : env.mongoUri = some u) (hx : env.dumpDirExists = true)
    (hn : env.dumpDirEntries ≠ 0) :
    (opts.compress = some false →
        (createBackup decode env opts).trace.any isTarEvent = false ∧
        Event.readFile (backupPathOf env opts) ∈ (createBackup decode env opts).trace)
    ∧ (opts.compress ≠ some false →
        Event.execTar ["-czf", backupPathOf env opts ++ ".tar.gz", "-C",
            pathDirname (backupPathOf env opts), pathBasename (backupPathOf env opts)] ∈
          (createBackup decode env opts).trace ∧
        (env.tarResult.success = true →
            Event.readFile (backupPathOf env opts ++ ".tar.gz") ∈
              (createBackup decode env opts).trace) ∧
        (env.tarResult.success = false →
            (createBackup decode env opts).result.success = false ∧
            (createBackup decode env opts).result.error =
              some ("Failed to compress backup: " ++ env.tarResult.stderr) ∧
            (createBackup decode env opts).trace.any isRmEvent = false)) := by
  constructor
  · intro hc
    rw [run_noCompress decode env opts u hu hx hn hc]
    exact ⟨by simp [isTarEvent, dumpEvOf], by simp⟩
  · intro hc
    cases ht : env.tarResult.success with
    | false =>
        rw [run_tarFail decode env opts u hu hx hn hc ht]
        refine ⟨by simp [tarEvOf], fun habs => ?_, fun _ => ⟨rfl, rfl, ?_⟩⟩
        · simp at habs
        · simp [isRmEvent, dumpEvOf, tarEvOf]
    | true =>
        rw [run_proceed decode env opts u hu hx hn hc ht]
        refine ⟨?_, fun _ => ?_, fun habs => ?_⟩
        · exact mem_uploadAndCleanup_trace decode env opts _ _ _ _ _
            (by simp [tarEvOf])
        · exact readFile_mem_uploadAndCleanup decode env opts _ _ _ _
        · simp at habs

/-- Witness for C5 at the fully succeeding world `envOk` with all options
omitted (compression defaulting to on). -/
theorem compress_stage_contract_witness :
    (opts0.compress = some false →
        (createBackup idDecode envOk opts0).trace.any isTarEvent = false ∧
        Event.readFile (backupPathOf envOk opts0) ∈ (createBackup idDecode envOk opts0).trace)
    ∧ (opts0.compress ≠ some false →
        Event.execTar ["-czf", backupPathOf envOk opts0 ++ ".tar.gz", "-C",
            pathDirname (backupPathOf envOk opts0), pathBasename (backupPathOf envOk opts0)] ∈
          (createBackup idDecode envOk opts0).trace ∧
        (envOk.tarResult.success = true →
            Event.readFile (backupPathOf envOk opts0 ++ ".tar.gz") ∈
              (createBackup idDecode envOk opts0).trace) ∧
        (envOk.tarResult.success = false →
            (createBackup idDecode envOk opts0).result.success = false ∧
            (createBackup idDecode envOk opts0).result.error =
              some ("Failed to compress backup: " ++ envOk.tarResult.stderr) ∧
            (createBackup idDecode envOk opts0).trace.any isRmEvent = false)) :=
  compress_stage_contract idDecode envOk opts0 "m" rfl rfl (by decide)

/-- C6: on every successful run with no name override and no timestamp
override, the object key (returned as `backupId`) equals
`backups/mongodb-backup-<timestamp><suffix>` where the timestamp is the
run's ISO-8601 clock reading with every `':'` and `'.'` replaced by `'-'`
and the suffix is `.tar.gz` exactly when compression is on (success is
only reachable with compression on, so the uncompressed half is vacuous);
the upload call in the trace carries that key, the decoded bucket, and
content type `application/gzip` when compressed (`application/octet-stream`
otherwise), and the returned location is `s3://<decoded bucket>/<key>`.
The clock hypothesis records that an ISO-8601 string contains no `'/'`. -/
theorem object_key_layout (decode : String → String) (env : Env) (opts : BackupOptions)
    (hs : (createBackup decode env opts).result.success = true)
    (hname : opts.name = none) (hts : opts.timestamp = none)
    (hclock : noSlash env.clockISO) :
    (createBackup decode env opts).result.backupId =
      "backups/" ++ ("mongodb-backup-" ++ formatTimestamp env.clockISO ++
        (if opts.compress = some false then "" else ".tar.gz")) ∧
    Event.s3Save (decode (env.bucketName.getD ""))
        ((createBackup decode env opts).result.backupId)
        (if opts.compress = some false then "application/octet-stream" else "application/gzip")
        ((createBackup decode env opts).result.size.getD 0) ∈
      (createBackup decode env opts).trace ∧
    (createBackup decode env opts).result.location =
      some ("s3://" ++ decode (env.bucketName.getD "") ++ "/" ++
        (createBackup decode env opts).result.backupId) := by
  rcases run_cases env opts with h | ⟨u, hu, hd⟩ | ⟨u, hu, hx, hn, hc⟩
    | ⟨u, hu, hx, hn, hc, ht⟩ | ⟨u, m, hu, hx, hn, hc, ht, hr⟩
    | ⟨u, n, hu, hx, hn, hc, ht, hr, hb⟩ | ⟨u, n, b, m, hu, hx, hn, hc, ht, hr, hb, hs3⟩
    | ⟨u, n, b, hu, hx, hn, hc, ht, hr, hb, hs3⟩
  · rw [run_uriNone decode env opts h] at hs
    simp [failureResult] at hs
  · rw [run_dumpFail decode env opts u hu hd] at hs
    simp at hs
  · rw [run_noCompress decode env opts u hu hx hn hc] at hs
    simp [failureResult] at hs
  · rw [run_tarFail decode env opts u hu hx hn hc ht] at hs
    simp at hs
  · rw [run_readErr decode env opts u m hu hx hn hc ht hr] at hs
    simp [failureResult] at hs
  · rw [run_bucketNone decode env opts u n hu hx hn hc ht hr hb] at hs
    simp [failureResult] at hs
  · rw [run_s3Err decode env opts u b m n hu hx hn hc ht hr hb hs3] at hs
    simp at hs
  · have hbn : backupNameOf env opts = "mongodb-backup-" ++ formatTimestamp env.clockISO := by
      simp [backupNameOf, startTimestamp, hname, hts]
    have hnos : noSlash (backupNameOf env opts) := by
      rw [hbn]
      exact noSlash_append _ _ (by decide) (noSlash_formatTimestamp _ hclock)
    have hkey : keyOf env opts =
        "backups/" ++ ("mongodb-backup-" ++ formatTimestamp env.clockISO ++ ".tar.gz") := by
      have hb2 := pathBasename_join_tar (backupNameOf env opts) hnos
      rw [keyOf, finalPathOf, backupPathOf, hb2, hbn]
    rw [run_s3Ok decode env opts u b n hu hx hn hc ht hr hb hs3]
    refine ⟨?_, ?_, ?_⟩
    · simp [hkey, hc]
    · simp [hkey, hb, hc]
    · simp [hb]

/-- Witness for C6 at the fully succeeding world `envOk` with all options
omitted. -/
theorem object_key_layout_witness :
    (createBackup idDecode envOk opts0).result.backupId =
      "backups/" ++ ("mongodb-backup-" ++ formatTimestamp envOk.clockISO ++
        (if opts0.compress = some false then "" else ".tar.gz")) ∧
    Event.s3Save (idDecode (envOk.bucketName.getD ""))
        ((createBackup idDecode envOk opts0).result.backupId)
        (if opts0.compress = some false then "application/octet-stream" else "application/gzip")
        ((createBackup idDecode envOk opts0).result.size.getD 0) ∈
      (createBackup idDecode envOk opts0).trace ∧
    (createBackup idDecode envOk opts0).result.location =
      some ("s3://" ++ idDecode (envOk.bucketName.getD "") ++ "/" ++
        (createBackup idDecode envOk opts0).result.backupId) :=
  object_key_layout idDecode envOk opts0 rfl rfl rfl (by decide)

/-- C7 counterexample: with an explicit timestamp option of `TS` but the
MongoDB URI setting absent, the run fails through the outermost catch and
the returned result carries a freshly computed clock reading instead of
the run's start timestamp, refuting the claim that the single start
timestamp appears in the returned result whether the run succeeds or
fails at any stage. -/
theorem timestamp_threading_counterexample :
    (createBackup idDecode envNoUri optsTS).result.success = false ∧
    (createBackup idDecode envNoUri optsTS).result.timestamp =
      envNoUri.outerClockISO ∧
    (createBackup idDecode envNoUri optsTS).result.timestamp ≠
      startTimestamp envNoUri optsTS := by
  refine ⟨rfl, rfl, by decide⟩

/-- C7 amended: the timestamp computed once at the start of the run (or
taken from the provided option) appears in the returned result on the
success path and on the failure paths produced by an early `return`
(dump verification, archive failure, upload failure); a failure that
reaches the outermost catch block (missing MongoDB URI, artifact read
error, missing bucket name) instead carries a freshly computed, unformatted
clock reading. -/
theorem timestamp_threading_amended (decode : String → String) (env : Env)
    (opts : BackupOptions) :
    (((createBackup decode env opts).stopped = StopStage.dumpVerification ∨
      (createBackup decode env opts).stopped = StopStage.compressFailure ∨
      (createBackup decode env opts).stopped = StopStage.uploadFailure ∨
      (createBackup decode env opts).stopped = StopStage.completed) →
        (createBackup decode env opts).result.timestamp = startTimestamp env opts)
    ∧ (((createBackup decode env opts).stopped = StopStage.configMongoUri ∨
      (createBackup decode env opts).stopped = StopStage.readFailure ∨
      (createBackup decode env opts).stopped = StopStage.bucketMissing) →
        (createBackup decode env opts).result.timestamp = env.outerClockISO) := by
  rcases run_cases env opts with h | ⟨u, hu, hd⟩ | ⟨u, hu, hx, hn, hc⟩
    | ⟨u, hu, hx, hn, hc, ht⟩ | ⟨u, m, hu, hx, hn, hc, ht, hr⟩
    | ⟨u, n, hu, hx, hn, hc, ht, hr, hb⟩ | ⟨u, n, b, m, hu, hx, hn, hc, ht, hr, hb, hs⟩
    | ⟨u, n, b, hu, hx, hn, hc, ht, hr, hb, hs⟩
  · rw [run_uriNone decode env opts h]
    simp [failureResult]
  · rw [run_dumpFail decode env opts u hu hd]
    simp
  · rw [run_noCompress decode env opts u hu hx hn hc]
    simp [failureResult]
  · rw [run_tarFail decode env opts u hu hx hn hc ht]
    simp
  · rw [run_readErr decode env opts u m hu hx hn hc ht hr]
    simp [failureResult]
  · rw [run_bucketNone decode env opts u n hu hx hn hc ht hr hb]
    simp [failureResult]
  · rw [run_s3Err decode env opts u b m n hu hx hn hc ht hr hb hs]
    simp
  · rw [run_s3Ok decode env opts u b n hu hx hn hc ht hr hb hs]
    simp

/-- Witness for C7 amended at the fully succeeding world `envOk`. -/
theorem timestamp_threading_amended_witness :
    (((createBackup idDecode envOk opts0).stopped = StopStage.dumpVerification ∨
      (createBackup idDecode envOk opts0).stopped = StopStage.compressFailure ∨
      (createBackup idDecode envOk opts0).stopped = StopStage.uploadFailure ∨
      (createBackup idDecode envOk opts0).stopped = StopStage.completed) →
        (createBackup idDecode envOk opts0).result.timestamp = startTimestamp envOk opts0)
    ∧ (((createBackup idDecode envOk opts0).stopped = StopStage.configMongoUri ∨
      (createBackup idDecode envOk opts0).stopped = StopStage.readFailure ∨
      (createBackup idDecode envOk opts0).stopped = StopStage.bucketMissing) →
        (createBackup idDecode envOk opts0).result.timestamp = envOk.outerClockISO) :=
  timestamp_threading_amended idDecode envOk opts0

/-- C8 counterexample: in a concrete world where the upload succeeds but
the recursive removal of the dump directory raises, the run still returns
the success variant and the directory removal appears in the trace — but
no artifact-file removal does (the raised error aborts the cleanup block
before the second removal), refuting the claim that the final artifact
file is removed in all cases. -/
theorem cleanup_stage_counterexample :
    (createBackup idDecode envRmFail optsTS).result.success = true ∧
    (createBackup idDecode envRmFail optsTS).trace.any isRmDirEvent = true ∧
    (createBackup idDecode envRmFail optsTS).trace.any isRmFileEvent = false := by
  refine ⟨rfl, rfl, rfl⟩

/-- C8 amended: on every run whose upload stage succeeded, compression
was necessarily on, the cleanup stage removes the dump directory
recursively, and then removes the final artifact file provided the
directory removal did not raise (an error raised by either removal is
caught and swallowed, so the run returns the success-variant result for
every value of the removal outcomes). -/
theorem cleanup_stage_amended (decode : String → String) (env : Env)
    (opts : BackupOptions)
    (hdone : (createBackup decode env opts).stopped = StopStage.completed) :
    opts.compress ≠ some false ∧
    Event.rmDirRecursive (backupPathOf env opts) ∈ (createBackup decode env opts).trace ∧
    (env.rmDirOk = true →
        Event.rmFile (backupPathOf env opts ++ ".tar.gz") ∈
          (createBackup decode env opts).trace) ∧
    (createBackup decode env opts).result.success = true := by
  rcases run_cases env opts with h | ⟨u, hu, hd⟩ | ⟨u, hu, hx, hn, hc⟩
    | ⟨u, hu, hx, hn, hc, ht⟩ | ⟨u, m, hu, hx, hn, hc, ht, hr⟩
    | ⟨u, n, hu, hx, hn, hc, ht, hr, hb⟩ | ⟨u, n, b, m, hu, hx, hn, hc, ht, hr, hb, hs⟩
    | ⟨u, n, b, hu, hx, hn, hc, ht, hr, hb, hs⟩
  · rw [run_uriNone decode env opts h] at hdone
    simp at hdone
  · rw [run_dumpFail decode env opts u hu hd] at hdone
    simp at hdone
  · rw [run_noCompress decode env opts u hu hx hn hc] at hdone
    simp at hdone
  · rw [run_tarFail decode env opts u hu hx hn hc ht] at hdone
    simp at hdone
  · rw [run_readErr decode env opts u m hu hx hn hc ht hr] at hdone
    simp at hdone
  · rw [run_bucketNone decode env opts u n hu hx hn hc ht hr hb] at hdone
    simp at hdone
  · rw [run_s3Err decode env opts u b m n hu hx hn hc ht hr hb hs] at hdone
    simp at hdone
  · rw [run_s3Ok decode env opts u b n hu hx hn hc ht hr hb hs]
    refine ⟨hc, ?_, fun hrm => ?_, rfl⟩
    · by_cases hrm : env.rmDirOk <;> simp [hrm]
    · simp [hrm, finalPathOf]

/-- Witness for C8 amended at the fully succeeding world `envOk`. -/
theorem cleanup_stage_amended_witness :
    opts0.compress ≠ some false ∧
    Event.rmDirRecursive (backupPathOf envOk opts0) ∈ (createBackup idDecode envOk opts0).trace ∧
    (envOk.rmDirOk = true →
        Event.rmFile (backupPathOf envOk opts0 ++ ".tar.gz") ∈
          (createBackup idDecode envOk opts0).trace) ∧
    (createBackup idDecode envOk opts0).result.success = true :=
  cleanup_stage_amended idDecode envOk opts0 rfl

theorem keyOf_eq_derivedKey (env : Env) (opts : BackupOptions) (t : String)
    (hts : opts.timestamp = some t) (hc : opts.compress ≠ some false) :
    keyOf env opts = derivedKey opts t := by
  simp only [keyOf, finalPathOf, backupPathOf, derivedKey, backupNameOf, startTimestamp, hts]
  simp [hc]

/-- C9 counterexample: two runs with identical options (no timestamp
option, no name override, same compression default) but different clock
readings derive different object keys, refuting the claim that the same
options alone determine the key — with the timestamp option absent the
key depends on the clock, which is state outside the options. -/
theorem key_determinism_counterexample :
    (createBackup idDecode envClockA opts0).result.success = true ∧
    (createBackup idDecode envClockB opts0).result.success = true ∧
    (createBackup idDecode envClockA opts0).result.backupId ≠
      (createBackup idDecode envClockB opts0).result.backupId := by
  refine ⟨rfl, rfl, by decide⟩

/-- C9 amended: when the timestamp option is provided, the object key is
a pure function of the options alone — every upload call any run issues
carries the key `derivedKey opts t`, a term that does not mention the
environment, so two runs with the same options derive the identical key;
with the timestamp option absent the key additionally incorporates the
run's clock reading and can differ between runs with identical options. -/
theorem key_determinism_amended (decode : String → String) (env : Env)
    (opts : BackupOptions) (t bkt k ct : String) (sz : Nat)
    (hts : opts.timestamp = some t)
    (hmem : Event.s3Save bkt k ct sz ∈ (createBackup decode env opts).trace) :
    k = derivedKey opts t := by
  rcases run_cases env opts with h | ⟨u, hu, hd⟩ | ⟨u, hu, hx, hn, hc⟩
    | ⟨u, hu, hx, hn, hc, ht⟩ | ⟨u, m, hu, hx, hn, hc, ht, hr⟩
    | ⟨u, n, hu, hx, hn, hc, ht, hr, hb⟩ | ⟨u, n, b, m, hu, hx, hn, hc, ht, hr, hb, hs⟩
    | ⟨u, n, b, hu, hx, hn, hc, ht, hr, hb, hs⟩
  · rw [run_uriNone decode env opts h] at hmem
    simp at hmem
  · rw [run_dumpFail decode env opts u hu hd] at hmem
    simp [dumpEvOf] at hmem
  · rw [run_noCompress decode env opts u hu hx hn hc] at hmem
    simp [dumpEvOf] at hmem
  · rw [run_tarFail decode env opts u hu hx hn hc ht] at hmem
    simp [dumpEvOf, tarEvOf] at hmem
  · rw [run_readErr decode env opts u m hu hx hn hc ht hr] at hmem
    simp [dumpEvOf, tarEvOf] at hmem
  · rw [run_bucketNone decode env opts u n hu hx hn hc ht hr hb] at hmem
    simp [dumpEvOf, tarEvOf] at hmem
  · rw [run_s3Err decode env opts u b m n hu hx hn hc ht hr hb hs] at hmem
    simp [dumpEvOf, tarEvOf] at hmem
    rw [hmem.2.1]
    exact keyOf_eq_derivedKey env opts t hts hc
  · rw [run_s3Ok decode env opts u b n hu hx hn hc ht hr hb hs] at hmem
    by_cases hrm : env.rmDirOk
    · simp [dumpEvOf, tarEvOf, hrm] at hmem
      rw [hmem.2.1]
      exact keyOf_eq_derivedKey env opts t hts hc
    · simp [dumpEvOf, tarEvOf, hrm] at hmem
      rw [hmem.2.1]
      exact keyOf_eq_derivedKey env opts t hts hc

/-- Witness for C9 amended at the fully succeeding world `envOk` with
timestamp option `TS`: the upload call in the trace carries exactly the
key derived from the options. -/
theorem key_determinism_amended_witness :
    Event.s3Save "bkt" "backups/mongodb-backup-TS.tar.gz" "application/gzip" 42 ∈
      (createBackup idDecode envOk optsTS).trace ∧
    "backups/mongodb-backup-TS.tar.gz" = derivedKey optsTS "TS" :=
  ⟨by decide,
    key_determinism_amended idDecode envOk optsTS "TS" "bkt"
      "backups/mongodb-backup-TS.tar.gz" "application/gzip" 42 rfl (by decide)⟩

/-- C10: on every run with the compression flag explicitly `false` whose
dump verification passes, the upload stage hands the dump directory path
itself to the whole-file read; reading a directory raises, the run
returns a failure result built by the outermost catch (with the `EISDIR`
message and a fresh clock reading), and no upload call to the object
store occurs. -/
theorem uncompressed_upload_unreachable (decode : String → String) (env : Env)
    (opts : BackupOptions) (u : String)
    (hu : env.mongoUri = some u) (hx : env.dumpDirExists = true)
    (hn : env.dumpDirEntries ≠ 0) (hc : opts.compress = some false) :
    Event.readFile (backupPathOf env opts) ∈ (createBackup decode env opts).trace ∧
    (createBackup decode env opts).stopped = StopStage.readFailure ∧
    (createBackup decode env opts).result.success = false ∧
    (createBackup decode env opts).result.error = some eisdirMessage ∧
    (createBackup decode env opts).result.timestamp = env.outerClockISO ∧
    (createBackup decode env opts).trace.any isSaveEvent = false := by
  rw [run_noCompress decode env opts u hu hx hn hc]
  refine ⟨by simp, rfl, rfl, rfl, rfl, by simp [isSaveEvent, dumpEvOf]⟩

/-- Witness for C10 at a concrete world with `compress: false` and a
successful dump. -/
theorem uncompressed_upload_unreachable_witness :
    Event.readFile (backupPathOf envOk optsNC) ∈ (createBackup idDecode envOk optsNC).trace ∧
    (createBackup idDecode envOk optsNC).stopped = StopStage.readFailure ∧
    (createBackup idDecode envOk optsNC).result.success = false ∧
    (createBackup idDecode envOk optsNC).result.error = some eisdirMessage ∧
    (createBackup idDecode envOk optsNC).result.timestamp = envOk.outerClockISO ∧
    (createBackup idDecode envOk optsNC).trace.any isSaveEvent = false :=
  uncompressed_upload_unreachable idDecode envOk optsNC "m" rfl rfl (by decide) rfl
